import Mathlib

/-!
Verification of the BetTrackingBot slip intake and settlement engine.

This file is a shallow embedding, in Lean 4, of the parts of the
BetTrackingBot repository that the specification's claims are about:

* `parsing.py` — leg segmentation, market classification, numeric field
  extraction (`split_into_leg_blocks`, `classify_line_block`, `parse_slip`,
  `extract_odds`, `extract_stake`, `extract_payout`, `normalize_stat`, …);
* `format_router.py` — the segmentation booster `boost_leg_segmentation`;
* `ocr_advanced.py` — `_sanitize`, `_score_text`, `_ocr_once`,
  `ocr_image_multi`;
* `cogs/bets.py` — the intake listener `on_message` and the two tracking
  loops `update_scores` / `update_props` together with the settlement sweep.

Python regular expressions are embedded via a small backtracking regex
engine (`RE` / `reMatch` / `reSearch` / `reSub`) that mirrors the
leftmost-search, greedy/lazy, left-biased-alternation semantics of the
`re` module on the ASCII inputs at hand.  Python floats are modelled as
exact rationals (every literal in the claims is exactly representable),
`None`-able values as `Option`, and falsy-based `x or y` idioms by
explicit helpers (`pyOrOptStr`, …).  External collaborators (the fuzzy
matcher `rapidfuzz`, the network, tesseract, Discord) enter as explicit
environment records, exactly at the call boundaries the source uses.
-/

/-! ## Python string helpers -/

/-- Python `str.lower()` (ASCII inputs). -/
def strLower (s : String) : String := String.mk (s.data.map Char.toLower)

/-- Python `str.upper()` (ASCII inputs). -/
def strUpper (s : String) : String := String.mk (s.data.map Char.toUpper)

/-- Python `\s` on ASCII: space, tab, newline, carriage return, vertical tab, form feed. -/
def isPySpace (c : Char) : Bool :=
  c = ' ' ∨ c = '\t' ∨ c = '\n' ∨ c = '\r' ∨ c = '\x0b' ∨ c = '\x0c'

/-- Python `\w` on ASCII: letters, digits, underscore. -/
def isWordChar (c : Char) : Bool := c.isAlphanum ∨ c = '_'

/-- Membership of a substring, Python's `needle in hay`. -/
def containsSub (needle hay : List Char) : Bool :=
  match hay with
  | [] => needle.isEmpty
  | _ :: t => needle.isPrefixOf hay || containsSub needle t

/-- String-level `needle in hay`. -/
def strContains (needle hay : String) : Bool := containsSub needle.data hay.data

/-- Accumulator-based worker for `pySplitWs`. -/
def pySplitWsAux : List Char → List Char → List String
  | [], cur => if cur.isEmpty then [] else [String.mk cur.reverse]
  | c :: rest, cur =>
    if isPySpace c then
      if cur.isEmpty then pySplitWsAux rest []
      else String.mk cur.reverse :: pySplitWsAux rest []
    else pySplitWsAux rest (c :: cur)

/-- Python `str.split()` with no argument: split on whitespace runs, dropping empties. -/
def pySplitWs (s : String) : List String := pySplitWsAux s.data []

/-- Count of characters satisfying a predicate. -/
def countP (p : Char → Bool) (s : String) : Nat := (s.data.filter p).length

/-- Count of decimal digit characters in a string. -/
def countDigits (s : String) : Nat := countP Char.isDigit s


/-- Structural single-character split, Python `s.split(sep)` for a one-char
separator (always returns at least one part). -/
def pySplitCharAux (sep : Char) : List Char → List Char → List String
  | [], cur => [String.mk cur.reverse]
  | c :: rest, cur =>
    if c = sep then String.mk cur.reverse :: pySplitCharAux sep rest []
    else pySplitCharAux sep rest (c :: cur)

/-- Python `s.split(sep)` for a one-character separator. -/
def pySplitChar (sep : Char) (s : String) : List String := pySplitCharAux sep s.data []

/-- Python `s.strip()` (ASCII whitespace). -/
def pyStrip (s : String) : String :=
  String.mk (((s.data.dropWhile isPySpace).reverse.dropWhile isPySpace).reverse)

/-! ## A small backtracking regex engine

Mirrors the semantics of Python's `re` module for the fixed patterns the
repository compiles: leftmost search, greedy (`star`/`plus`/`opt`) and lazy
(`starL`) quantifiers via backtracking, alternation biased to the left,
anchors `^` (`bos`), `\b` (`wordB`) and the lookbehind `(?<!\d)`
(`notPrevDigit`).  Groups record the span they matched. -/

/-- Regex abstract syntax.  `pred` is a single-character class. -/
inductive RE where
  | eps
  | pred (p : Char → Bool)
  | cat (a b : RE)
  | alt (a b : RE)
  | star (a : RE)
  | starL (a : RE)
  | opt (a : RE)
  | group (idx : Nat) (a : RE)
  | bos
  | wordB
  | notPrevDigit

/-- Capture list: `(group index, start, end)` positions into the subject. -/
abbrev Caps := List (Nat × Nat × Nat)

/-- Character at a position, if in range. -/
def chAt (s : List Char) (i : Nat) : Option Char := s.get? i

/-- Is the character at position `i` (if any) a word character? -/
def isWordAt (s : List Char) (i : Nat) : Bool :=
  match chAt s i with
  | some c => isWordChar c
  | none => false

/-- Python `\b`: positions where word-ness changes between `i-1` and `i`. -/
def atWordBoundary (s : List Char) (i : Nat) : Bool :=
  let prev := if i = 0 then false else isWordAt s (i - 1)
  prev ≠ isWordAt s i

/-- CPS backtracking matcher.  `k` is the success continuation receiving the
position after the current node and the captures committed so far; `fuel`
bounds the recursion depth (all uses supply ample fuel for their subject). -/
def reMatch (fuel : Nat) (r : RE) (s : List Char) (i : Nat) (caps : Caps)
    (k : Nat → Caps → Option (Nat × Caps)) : Option (Nat × Caps) :=
  match fuel with
  | 0 => none
  | fuel + 1 =>
    match r with
    | .eps => k i caps
    | .pred p =>
      match chAt s i with
      | some c => if p c then k (i + 1) caps else none
      | none => none
    | .cat a b => reMatch fuel a s i caps (fun j c => reMatch fuel b s j c k)
    | .alt a b =>
      match reMatch fuel a s i caps k with
      | some res => some res
      | none => reMatch fuel b s i caps k
    | .star a =>
      match reMatch fuel a s i caps
          (fun j c => if i < j then reMatch fuel (.star a) s j c k else none) with
      | some res => some res
      | none => k i caps
    | .starL a =>
      match k i caps with
      | some res => some res
      | none =>
        reMatch fuel a s i caps
          (fun j c => if i < j then reMatch fuel (.starL a) s j c k else none)
    | .opt a =>
      match reMatch fuel a s i caps k with
      | some res => some res
      | none => k i caps
    | .group idx a => reMatch fuel a s i caps (fun j c => k j ((idx, i, j) :: c))
    | .bos => if i = 0 then k i caps else none
    | .wordB => if atWordBoundary s i then k i caps else none
    | .notPrevDigit =>
      if i = 0 then k i caps
      else
        match chAt s (i - 1) with
        | some c => if c.isDigit then none else k i caps
        | none => k i caps

/-- Fuel that is ample for the fixed patterns of this repository on a given
subject (depth ≤ pattern size + subject length × pattern depth). -/
def reFuel (s : List Char) : Nat := 800 + 64 * s.length

/-- One match attempt anchored at position `i`. -/
def reMatchAt (r : RE) (s : List Char) (i : Nat) : Option (Nat × Caps) :=
  reMatch (reFuel s) r s i [] (fun j c => some (j, c))

/-- Worker for `reSearch`: try positions `i, i+1, …` while `gas` lasts
(`gas` is one more than the number of remaining start positions). -/
def reSearchAux (r : RE) (s : List Char) : Nat → Nat → Option (Nat × Nat × Caps)
  | 0, _ => none
  | gas + 1, i =>
    match reMatchAt r s i with
    | some (j, caps) => some (i, j, caps)
    | none => if i < s.length then reSearchAux r s gas (i + 1) else none

/-- Python `pattern.search(s)`: leftmost match as `(start, end, captures)`. -/
def reSearch (r : RE) (s : List Char) : Option (Nat × Nat × Caps) :=
  reSearchAux r s (s.length + 1) 0

/-- Text of capture group `idx` of a match (empty if the group is absent). -/
def groupStr (s : List Char) (caps : Caps) (idx : Nat) : String :=
  match caps.find? (fun c => c.1 = idx) with
  | some (_, a, b) => String.mk ((s.drop a).take (b - a))
  | none => ""

/-- Worker for `reSub`: scan from position `i`, replacing non-overlapping
matches (all patterns used with `reSub` here consume at least one char);
`gas` bounds the number of scan steps. -/
def reSubAux (r : RE) (repl : List Char → Caps → List Char) (s : List Char) :
    Nat → Nat → List Char
  | 0, _ => []
  | gas + 1, i =>
    if i < s.length then
      match reMatchAt r s i with
      | some (j, caps) =>
        if i < j then repl s caps ++ reSubAux r repl s gas j
        else repl s caps ++ (chAt s i).toList ++ reSubAux r repl s gas (i + 1)
      | none => (chAt s i).toList ++ reSubAux r repl s gas (i + 1)
    else []

/-- Python `re.sub(pattern, repl, s)` for the replacement functions used here. -/
def reSub (r : RE) (repl : List Char → Caps → List Char) (s : String) : String :=
  String.mk (reSubAux r repl s.data (s.data.length + 1) 0)

/-! ### Pattern construction helpers -/

/-- Single literal character. -/
def lit (c : Char) : RE := .pred (fun x => x = c)

/-- Case-insensitive literal character (`c` given in lowercase). -/
def ilit (c : Char) : RE := .pred (fun x => x.toLower = c)

/-- Case-insensitive literal word. -/
def istr (w : String) : RE :=
  (w.data.map ilit).foldr RE.cat .eps

/-- Character class from an explicit list. -/
def cls (l : List Char) : RE := .pred (fun x => l.contains x)

/-- Concatenation of a list of nodes. -/
def cats (l : List RE) : RE := l.foldr RE.cat .eps

/-- Left-biased alternation of a list of nodes (must be nonempty in use). -/
def alts (l : List RE) : RE :=
  match l with
  | [] => .eps
  | [r] => r
  | r :: rest => .alt r (alts rest)

/-- Greedy `+`. -/
def rplus (r : RE) : RE := .cat r (.star r)

/-- Lazy `+?`. -/
def rplusL (r : RE) : RE := .cat r (.starL r)

/-- Def `\d`. -/
def rdigit : RE := .pred Char.isDigit

/-- Def `\s`. -/
def rspace : RE := .pred isPySpace

/-- Def `[A-Za-z]` (with or without `re.I` this is any ASCII letter). -/
def rletter : RE := .pred Char.isAlpha

/-! ## parsing.py — compiled patterns -/

/-- Def `RE_AMERICAN_ODDS = (?<!\d)([+-]\d{2,4})\b`. -/
def RE_AMERICAN_ODDS : RE :=
  cats [.notPrevDigit,
        .group 1 (cats [cls ['+', '-'], rdigit, rdigit,
                        .opt (.cat rdigit (.opt rdigit))]),
        .wordB]

/-- Def `RE_MONEY = \$([\d,.]+)`. -/
def RE_MONEY : RE :=
  cats [lit '$', .group 1 (rplus (.pred (fun c => c.isDigit ∨ c = ',' ∨ c = '.')))]

/-- Def `RE_STAKE = (?:stake|risk|wager)\s*\$?([\d,.]+)`, `re.I`. -/
def RE_STAKE : RE :=
  cats [alts [istr "stake", istr "risk", istr "wager"],
        .star rspace, .opt (lit '$'),
        .group 1 (rplus (.pred (fun c => c.isDigit ∨ c = ',' ∨ c = '.')))]

/-- Def `RE_PAYOUT = (?:payout|to\s*win)\s*\$?([\d,.]+)`, `re.I`. -/
def RE_PAYOUT : RE :=
  cats [alts [istr "payout", cats [istr "to", .star rspace, istr "win"]],
        .star rspace, .opt (lit '$'),
        .group 1 (rplus (.pred (fun c => c.isDigit ∨ c = ',' ∨ c = '.')))]

/-- Def `RE_OU = \b(over|under)\s*([0-9]+(?:\.[0-9])?)\b`, `re.I`. -/
def RE_OU : RE :=
  cats [.wordB, .group 1 (alts [istr "over", istr "under"]),
        .star rspace,
        .group 2 (.cat (rplus rdigit) (.opt (.cat (lit '.') rdigit))),
        .wordB]

/-- The apostrophe character (code 39), written via its code point. -/
def isApos (c : Char) : Bool := c.toNat = 39

/-- The class `[A-Za-z .'-]` used by the team patterns. -/
def teamChar : RE := .pred (fun c => c.isAlpha ∨ c = ' ' ∨ c = '.' ∨ isApos c ∨ c = '-')

/-- Def `RE_TEAM_SPREAD = \b([A-Za-z .'-]+?)\s*([+-]\d+(?:\.\d)?)\b`. -/
def RE_TEAM_SPREAD : RE :=
  cats [.wordB, .group 1 (rplusL teamChar),
        .star rspace,
        .group 2 (cats [cls ['+', '-'], rplus rdigit, .opt (.cat (lit '.') rdigit)]),
        .wordB]

/-- Def `RE_VS = \b([A-Za-z .'-]+)\s+@\s+([A-Za-z .'-]+)|\b([A-Za-z .'-]+)\s+vs\.?\s+([A-Za-z .'-]+)`, `re.I`. -/
def RE_VS : RE :=
  .alt
    (cats [.wordB, .group 1 (rplus teamChar), rplus rspace, lit '@', rplus rspace,
           .group 2 (rplus teamChar)])
    (cats [.wordB, .group 3 (rplus teamChar), rplus rspace, istr "vs", .opt (lit '.'),
           rplus rspace, .group 4 (rplus teamChar)])

/-- The class `[a-z'.-]` of `RE_PLAYER_STAT` (under `re.I` the letters are any case). -/
def nameTailChar : RE := .pred (fun c => c.isAlpha ∨ isApos c ∨ c = '.' ∨ c = '-')

/-- Def `RE_PLAYER_STAT = (?P<name>[A-Z][a-z]+(?:\s+[A-Z][a-z'.-]+)+)\s*[-–—:]\s*(?P<stat>[A-Za-z ]+)`,
`re.I`; `name` is group 1 and `stat` group 2. -/
def RE_PLAYER_STAT : RE :=
  cats [.group 1 (cats [rletter, rplus rletter,
                        rplus (cats [rplus rspace, rletter, rplus nameTailChar])]),
        .star rspace, cls ['-', '–', '—', ':'], .star rspace,
        .group 2 (rplus (.pred (fun c => c.isAlpha ∨ c = ' ')))]

/-- Def `RE_LEG_START = ^\s*(over|under|yes|no)\b|^\s*\d+\+|\bto\s+record\b|\banytime\s+td\b|\bto\s+score\b`, `re.I`. -/
def RE_LEG_START : RE :=
  alts [cats [.bos, .star rspace, .group 1 (alts [istr "over", istr "under", istr "yes", istr "no"]), .wordB],
        cats [.bos, .star rspace, rplus rdigit, lit '+'],
        cats [.wordB, istr "to", rplus rspace, istr "record", .wordB],
        cats [.wordB, istr "anytime", rplus rspace, istr "td", .wordB],
        cats [.wordB, istr "to", rplus rspace, istr "score", .wordB]]

/-- Def `RE_WINNER_KEY = \b(to win|winner|moneyline|ml)\b`, `re.I`. -/
def RE_WINNER_KEY : RE :=
  cats [.wordB, .group 1 (alts [istr "to win", istr "winner", istr "moneyline", istr "ml"]), .wordB]

/-- Def `RE_TOTAL_KEY = \b(total (?:runs|points|match points|goals|rounds))\b`, `re.I`. -/
def RE_TOTAL_KEY : RE :=
  cats [.wordB,
        .group 1 (.cat (istr "total ")
                       (alts [istr "runs", istr "points", istr "match points",
                              istr "goals", istr "rounds"])),
        .wordB]

/-- Def `RE_UFC_MMA_KEY = \b(total rounds|winner|method of victory|ko/tko|submission|decision)\b`, `re.I`. -/
def RE_UFC_MMA_KEY : RE :=
  cats [.wordB,
        .group 1 (alts [istr "total rounds", istr "winner", istr "method of victory",
                        istr "ko/tko", istr "submission", istr "decision"]),
        .wordB]

/-- Def `RE_SOCCER_KEY = \b(btts|both teams to score|win to nil|draw no bet|double chance)\b`, `re.I`. -/
def RE_SOCCER_KEY : RE :=
  cats [.wordB,
        .group 1 (alts [istr "btts", istr "both teams to score", istr "win to nil",
                        istr "draw no bet", istr "double chance"]),
        .wordB]

/-! ## Python value helpers (truthiness, numbers) -/

/-- Python `a or b` on nullable strings (`None` and `""` are falsy). -/
def pyOrOptStr : Option String → Option String → Option String
  | some s, b => if s = "" then b else some s
  | none, b => b

/-- Python `a or d` collapsing a nullable string to a string. -/
def pyOrStr : Option String → String → String
  | some s, d => if s = "" then d else s
  | none, d => d

/-- Truthiness of a nullable list (`None` and `[]` are falsy). -/
def truthyTeams : Option (List String) → Bool
  | some (_ :: _) => true
  | _ => false

/-- Truthiness of a nullable string. -/
def truthyStr : Option String → Bool
  | some s => s ≠ ""
  | none => false

/-- Digits-only check. -/
def allDigits (cs : List Char) : Bool := cs.all Char.isDigit

/-- Numeric value of a digit string. -/
def natOfDigits (cs : List Char) : Nat := cs.foldl (fun a c => a * 10 + (c.toNat - 48)) 0

/-- Python `int` on the signed digit strings produced by `RE_AMERICAN_ODDS`. -/
def pyIntSigned (s : String) : Int :=
  match s.data with
  | '+' :: t => (natOfDigits t : Int)
  | '-' :: t => -(natOfDigits t : Int)
  | t => (natOfDigits t : Int)

/-- Python `float(s)` on plain decimal strings, as an exact rational (built
with `mkRat`, which normalises; the value is exactly the decimal the source's
`float` call denotes).  A string `float` would reject (and hence a raised
`ValueError`) is modelled as `none`. -/
def pyFloat (s : String) : Option ℚ :=
  let signed : Bool × List Char :=
    match s.data with
    | '+' :: t => (false, t)
    | '-' :: t => (true, t)
    | t => (false, t)
  match pySplitChar '.' (String.mk signed.2) with
  | [a] =>
    if a.data ≠ [] && allDigits a.data then
      let n : Int := (natOfDigits a.data : Int)
      some (mkRat (if signed.1 then -n else n) 1)
    else none
  | [a, b] =>
    if (a.data ≠ [] || b.data ≠ []) && allDigits a.data && allDigits b.data then
      let n : Int := (natOfDigits a.data : Int) * 10 ^ b.data.length + (natOfDigits b.data : Int)
      some (mkRat (if signed.1 then -n else n) (10 ^ b.data.length))
    else none
  | _ => none

/-- Def `pyFloat` on strings the surrounding regex guarantees to be parseable. -/
def pyFloatD (s : String) : ℚ := (pyFloat s).getD 0

/-- Python `str(float)` for the terminating decimals arising in this code. -/
def pyFloatStr (q : ℚ) : String :=
  if q.den = 1 then toString q.num ++ ".0"
  else
    match (List.range 18).find? (fun k => (q * (10 : ℚ) ^ k).den = 1) with
    | some k =>
      let n := (q * (10 : ℚ) ^ k).num
      let sign := if n < 0 then "-" else ""
      let ds := toString n.natAbs
      let ds := if ds.length ≤ k then String.mk (List.replicate (k + 1 - ds.length) '0') ++ ds else ds
      sign ++ String.mk (ds.data.take (ds.length - k)) ++ "." ++ String.mk (ds.data.drop (ds.length - k))
    | none => toString q.num ++ "/" ++ toString q.den

/-- Python falsy formatting of a nullable float, `x or ''` with `None` and
`0.0` falsy, as used in the f-string target texts. -/
def pyFloatOrEmpty : Option ℚ → String
  | some v => if v = 0 then "" else pyFloatStr v
  | none => ""

/-- Strip commas, Python `s.replace(",", "")`. -/
def removeCommas (s : String) : String := String.mk (s.data.filter (fun c => c ≠ ','))

/-! ## parsing.py — catalogs and fuzzy matching boundary

`TEAM_MAP` / `PLAYER_MAP` are module-level dicts with the fixed key set below,
whose values are populated from the network; `rapidfuzz.process.extract` is an
external library.  Both enter the embedding as an explicit environment. -/

/-- The fixed key order of `TEAM_MAP` and `PLAYER_MAP`. -/
def PLAYER_LEAGUES : List String := ["NFL", "NBA", "MLB", "NHL", "SOCCER", "UFC"]

/-- The team-sport tuple `("NFL","NBA","MLB","NHL","SOCCER")` used throughout. -/
def TEAM_SPORT_LEAGUES : List String := ["NFL", "NBA", "MLB", "NHL", "SOCCER"]

/-- Catalog snapshot plus the `rapidfuzz` matcher:
`extract q choices limit` models `process.extract(q, choices, scorer=fuzz.partial_ratio, limit=limit)`
as `(choice, score)` pairs in result order. -/
structure Catalogs where
  teams : String → List String
  players : String → List String
  extract : String → List String → Nat → List (String × ℚ)

/-- Catalogs as at module initialisation (before any network refresh). -/
def emptyCatalogs : Catalogs :=
  { teams := fun _ => [], players := fun _ => [], extract := fun _ _ _ => [] }

/-- Def `best_team_match` of `parsing.py`. -/
def best_team_match (cat : Catalogs) (league text : String) (limit : Nat) (threshold : ℚ) :
    List String :=
  let teams := cat.teams league
  if teams.isEmpty then []
  else ((cat.extract text teams limit).filter (fun p => threshold ≤ p.2)).map (fun p => p.1)

/-- Def `best_player_match` of `parsing.py`. -/
def best_player_match (cat : Catalogs) (league text : String) (limit : Nat) (threshold : ℚ) :
    List String :=
  let players := cat.players league
  if players.isEmpty then []
  else ((cat.extract text players limit).filter (fun p => threshold ≤ p.2)).map (fun p => p.1)

/-- Ordered dict upsert, `votes[k] = votes.get(k, 0) + n` on an insertion-ordered dict. -/
def voteAdd (votes : List (String × Nat)) (k : String) (n : Nat) : List (String × Nat) :=
  if (votes.lookup k).isSome then
    votes.map (fun kv => if kv.1 = k then (kv.1, kv.2 + n) else kv)
  else votes ++ [(k, n)]

/-- Python `max(votes, key=votes.get)` on a nonempty insertion-ordered dict
(first key among those of maximal count), `None` when empty. -/
def pyMaxKey (votes : List (String × Nat)) : Option String :=
  match votes with
  | [] => none
  | kv0 :: rest =>
    some (rest.foldl (fun (b : String × Nat) kv => if b.2 < kv.2 then kv else b) kv0).1

/-- Keyword hints for soccer detection. -/
def SOCCER_HINT_WORDS : List String :=
  ["premier league", "la liga", "bundesliga", "serie a", "mls", "champions league"]

/-- Def `detect_league_from_text` of `parsing.py`. -/
def detect_league_from_text (cat : Catalogs) (text : String) : Option String :=
  let lowered := strLower text
  let votes : List (String × Nat) := []
  let votes := if (reSearch RE_UFC_MMA_KEY lowered.data).isSome
                  || strContains "ufc" lowered || strContains "mma" lowered
               then voteAdd votes "UFC" 3 else votes
  let votes := if (reSearch RE_SOCCER_KEY lowered.data).isSome
                  || SOCCER_HINT_WORDS.any (fun k => strContains k lowered)
               then voteAdd votes "SOCCER" 2 else votes
  let votes := TEAM_SPORT_LEAGUES.foldl (fun v lg =>
      match best_team_match cat lg text 10 70 with
      | [] => v
      | ms => voteAdd v lg ms.length) votes
  let votes := PLAYER_LEAGUES.foldl (fun v lg =>
      match best_player_match cat lg text 5 78 with
      | [] => v
      | ms => voteAdd v lg (ms.length + 1)) votes
  pyMaxKey votes

/-! ## parsing.py — field extraction and classification -/

/-- Def `extract_odds` of `parsing.py`. -/
def extract_odds (text : String) : Option Int :=
  match reSearch RE_AMERICAN_ODDS text.data with
  | some (_, _, caps) => some (pyIntSigned (groupStr text.data caps 1))
  | none => none

/-- Def `extract_stake` of `parsing.py`. -/
def extract_stake (text : String) : Option ℚ :=
  match reSearch RE_STAKE text.data with
  | some (_, _, caps) => pyFloat (removeCommas (groupStr text.data caps 1))
  | none =>
    match reSearch RE_MONEY text.data with
    | some (_, _, caps) => pyFloat (removeCommas (groupStr text.data caps 1))
    | none => none

/-- Def `extract_payout` of `parsing.py`. -/
def extract_payout (text : String) : Option ℚ :=
  match reSearch RE_PAYOUT text.data with
  | some (_, _, caps) => pyFloat (removeCommas (groupStr text.data caps 1))
  | none => none

/-- The phase-2 pool walk of `extract_game_teams_from_text` (`seen` starts
empty; append unseen entries, stopping once two candidates are collected). -/
def gameTeamsPool (acc : List String) (seen : List String) : List String → List String
  | [] => acc
  | t :: rest =>
    if ¬ seen.contains t then
      let acc := acc ++ [t]
      if acc.length = 2 then acc else gameTeamsPool acc (t :: seen) rest
    else gameTeamsPool acc seen rest

/-- Def `extract_game_teams_from_text` of `parsing.py`. -/
def extract_game_teams_from_text (cat : Catalogs) (league : String) (text : String) :
    List String :=
  let candidates :=
    match reSearch RE_VS text.data with
    | some (_, _, caps) =>
      let parts := ([1, 2, 3, 4].map (fun g => groupStr text.data caps g)).filter (fun p => p ≠ "")
      parts.foldl (fun acc p =>
        match best_team_match cat league p 1 60 with
        | m :: _ => acc ++ [m]
        | [] => acc) []
    | none => []
  let candidates :=
    if candidates.length < 2 then
      gameTeamsPool candidates [] (best_team_match cat league text 6 65)
    else candidates
  candidates.take 2

/-- Def `PROP_STATS` of `parsing.py` (order significant: first hit wins). -/
def PROP_STATS : List String :=
  ["passing yards", "rushing yards", "receiving yards", "receptions", "attempts", "completions",
   "passing touchdowns", "rushing touchdowns", "receiving touchdowns", "touchdowns", "interceptions",
   "points", "rebounds", "assists", "pra", "threes", "three pointers", "three-point field goals",
   "shots on goal", "saves", "hits", "total bases", "strikeouts", "earned runs", "outs", "hits allowed",
   "anytime td", "anytime touchdown", "to score", "total rounds", "total match points", "total runs", "total goals",
   "passing attempts", "passing completions", "sacks", "tackles",
   "goals", "assists", "shots", "shots on target", "clean sheet", "yellow card", "red card", "btts", "both teams to score",
   "win to nil", "draw no bet", "double chance",
   "significant strikes", "takedowns", "submission attempts", "knockdowns", "method of victory"]

/-- Def `normalize_stat` of `parsing.py`: first canonical category containing or
contained in the lowered, stripped phrase. -/
def normalize_stat (stat : String) : String :=
  let s := pyStrip (strLower stat)
  match PROP_STATS.find? (fun c => strContains s c || strContains c s) with
  | some c => c
  | none => s

/-- One wagered leg: the `Leg` dataclass of `parsing.py` plus the `game_id`
key the tracking loops add to its `__dict__` (absent, i.e. `none`, until a
tick assigns it). -/
structure Leg where
  type : String
  league : Option String := none
  player : Option String := none
  stat : Option String := none
  side : Option String := none
  line : Option ℚ := none
  target_text : Option String := none
  team : Option String := none
  game_teams : Option (List String) := none
  raw_block : Option String := none
  current_value : Option ℚ := none
  result : String := "pending"
  game_id : Option String := none
deriving DecidableEq, Repr

/-- Def `ParsedSlip` dataclass of `parsing.py`. -/
structure ParsedSlip where
  bet_type : String
  league : Option String
  odds : Option Int
  stake : Option ℚ
  payout : Option ℚ
  legs : List Leg
deriving DecidableEq, Repr

/-- Def `classify_line_block` of `parsing.py`. -/
def classify_line_block (cat : Catalogs) (block : String) : Leg :=
  let league_guess := detect_league_from_text cat block
  let pm := reSearch RE_PLAYER_STAT block.data
  let ou := reSearch RE_OU block.data
  match pm with
  | some (_, _, pmCaps) =>
    let player_text := pyStrip (groupStr block.data pmCaps 1)
    let best := PLAYER_LEAGUES.foldl
      (fun (acc : Nat × Option String) lg =>
        match best_player_match cat lg player_text 1 70 with
        | _ :: _ =>
          let score := if league_guess = some lg then 2 else 1
          if acc.1 < score then (score, some lg) else acc
        | [] => acc)
      (0, league_guess)
    let league_guess := pyOrOptStr best.2 league_guess
    let stat0 := normalize_stat (groupStr block.data pmCaps 2)
    let lowBlock := strLower block
    let slt : Option String × Option ℚ × Option String × String :=
      match ou with
      | some (_, _, ouCaps) =>
        let sideStr := strLower (groupStr block.data ouCaps 1)
        let lineVal := pyFloatD (groupStr block.data ouCaps 2)
        (some sideStr, some lineVal, some (sideStr ++ " " ++ pyFloatStr lineVal), stat0)
      | none =>
        if strContains "anytime td" lowBlock || strContains "to score" lowBlock then
          let tgt := if strContains "yes" lowBlock then some "Yes"
                     else if strContains "no" lowBlock then some "No" else (none : Option String)
          (tgt.map strLower, none, tgt, "anytime td")
        else (none, none, none, stat0)
    { type := "prop"
      league := league_guess
      player := some player_text
      stat := some slt.2.2.2
      side := slt.1
      line := slt.2.1
      target_text := slt.2.2.1
      raw_block := some block
      game_teams :=
        match league_guess with
        | some lg =>
          if TEAM_SPORT_LEAGUES.contains lg
          then some (extract_game_teams_from_text cat lg block)
          else none
        | none => none }
  | none =>
    if ou.isSome || (reSearch RE_TOTAL_KEY block.data).isSome then
      let sl : Option String × Option ℚ :=
        match ou with
        | some (_, _, ouCaps) =>
          (some (strLower (groupStr block.data ouCaps 1)), some (pyFloatD (groupStr block.data ouCaps 2)))
        | none => (none, none)
      { type := "total", league := league_guess, side := sl.1, line := sl.2,
        target_text := some (pyStrip (pyOrStr sl.1 "" ++ " " ++ pyFloatOrEmpty sl.2)),
        raw_block := some block }
    else
      match reSearch RE_TEAM_SPREAD block.data with
      | some (_, _, spCaps) =>
        let tg0 := pyStrip (groupStr block.data spCaps 1)
        let team_guess := if ["over", "under", "yes", "no"].contains (strLower tg0) then "" else tg0
        let line := pyFloat (groupStr block.data spCaps 2)
        let best := if team_guess ≠ ""
                    then best_team_match cat (pyOrStr league_guess "") team_guess 1 60
                    else []
        let team : Option String :=
          match best with
          | b :: _ => some b
          | [] => if team_guess ≠ "" then some team_guess else none
        { type := "spread", league := league_guess, team := team, line := line,
          target_text := some (pyStrip (pyOrStr team "" ++ " " ++ pyFloatOrEmpty line)),
          raw_block := some block }
      | none =>
        if (reSearch RE_WINNER_KEY block.data).isSome then
          let teams := best_team_match cat (pyOrStr league_guess "") block 2 75
          let team := teams.head?
          { type := "moneyline", league := league_guess, team := team,
            target_text := some (pyOrStr team "ML"), raw_block := some block }
        else
          { type := "unknown", league := league_guess,
            target_text := some (String.mk ((pyStrip block).data.take 80)),
            raw_block := some block }

/-- Chrome words whose presence marks a short block as a header/footer. -/
def CHROME_WORDS : List String :=
  ["parlay", "sgp", "sgpmax", "wager", "payout", "odds", "hard rock", "sports bet",
   "bet slip", "profit boost", "boosted"]

/-- Block accumulation loop of `split_into_leg_blocks`. -/
def splitBlocksLoop : List String → List String → List String
  | [], cur => if cur.isEmpty then [] else [String.intercalate "\n" cur]
  | ln :: rest, cur =>
    if (reSearch RE_LEG_START ln.data).isSome && ¬cur.isEmpty then
      String.intercalate "\n" cur :: splitBlocksLoop rest [ln]
    else splitBlocksLoop rest (cur ++ [ln])

/-- Def `split_into_leg_blocks` of `parsing.py`. -/
def split_into_leg_blocks (text : String) : List String :=
  let lines := ((pySplitChar '\n' text).map pyStrip).filter (fun ln => ln ≠ "")
  let blocks := splitBlocksLoop lines []
  blocks.filter (fun b =>
    let low := strLower b
    let tokens := pySplitWs low
    ¬(tokens.length ≤ 3 && CHROME_WORDS.any (fun k => strContains k low)))

/-- Def `parse_slip` of `parsing.py`. -/
def parse_slip (cat : Catalogs) (text : String) : ParsedSlip :=
  let odds := extract_odds text
  let stake := extract_stake text
  let payout := extract_payout text
  let blocks := split_into_leg_blocks text
  let legs := blocks.map (fun b =>
    let leg := classify_line_block cat b
    { leg with game_teams :=
        match leg.league with
        | some lg =>
          if TEAM_SPORT_LEAGUES.contains lg && ¬truthyTeams leg.game_teams
          then some (extract_game_teams_from_text cat lg b)
          else leg.game_teams
        | none => leg.game_teams })
  let league_vote := legs.foldl (fun v l =>
      match l.league with
      | some lg => if lg ≠ "" then voteAdd v lg 1 else v
      | none => v) []
  let overall_league :=
    match pyMaxKey league_vote with
    | some lg => some lg
    | none => detect_league_from_text cat text
  { bet_type := if legs.length > 1 then "parlay" else "single"
    league := overall_league
    odds := odds
    stake := stake
    payout := payout
    legs := legs }

/-! ## format_router.py — `boost_leg_segmentation`

The four `re.sub` calls of the source, in order.  The replacement is always
`"\n\1\n"`; note that the stake and payout patterns *consume* the trailing
amount while group 1 holds only the keyword. -/

/-- Pattern of `re.sub` #1: `(?i)(leg\s+\d+)`. -/
def BOOST_LEG : RE := .group 1 (cats [istr "leg", rplus rspace, rplus rdigit])

/-- Pattern of `re.sub` #2: `(?i)(wager|stake|risk)\s*[:$]?\s*[0-9]+(?:\.[0-9]{1,2})?`. -/
def BOOST_STAKE : RE :=
  cats [.group 1 (alts [istr "wager", istr "stake", istr "risk"]),
        .star rspace, .opt (cls [':', '$']), .star rspace,
        rplus rdigit, .opt (cats [lit '.', rdigit, .opt rdigit])]

/-- Pattern of `re.sub` #3: `(?i)(to win|payout|return)\s*[:$]?\s*[0-9]+(?:\.[0-9]{1,2})?`. -/
def BOOST_PAYOUT : RE :=
  cats [.group 1 (alts [istr "to win", istr "payout", istr "return"]),
        .star rspace, .opt (cls [':', '$']), .star rspace,
        rplus rdigit, .opt (cats [lit '.', rdigit, .opt rdigit])]

/-- Pattern of `re.sub` #4: `(?i)(over|under|total|spread|moneyline|ml)\b`. -/
def BOOST_MARKET : RE :=
  .cat (.group 1 (alts [istr "over", istr "under", istr "total", istr "spread",
                        istr "moneyline", istr "ml"]))
       .wordB

/-- The replacement `"\n\1\n"`. -/
def boostRepl (s : List Char) (caps : Caps) : List Char :=
  '\n' :: ((groupStr s caps 1).data ++ ['\n'])

/-- Def `boost_leg_segmentation` of `format_router.py` (the `style` argument is
accepted and ignored, as in the source). -/
def boost_leg_segmentation (text : String) (style : String) : String :=
  let augmented := text
  let augmented := reSub BOOST_LEG boostRepl augmented
  let augmented := reSub BOOST_STAKE boostRepl augmented
  let augmented := reSub BOOST_PAYOUT boostRepl augmented
  let augmented := reSub BOOST_MARKET boostRepl augmented
  let _ := style
  augmented

/-! ## ocr_advanced.py

Image preprocessing (`cv2`), the tesseract binding and Unicode NFKC
normalisation are external; they enter as the environment `OcrEnv`.
`preprocess mode rot` models `_preprocess_variant(img_bytes, mode, rotate=rot)`
(whose exceptions, e.g. an undecodable image, are *not* caught by
`ocr_image_multi`); `engine img config` models
`pytesseract.image_to_string(pil_img, config=config)`, whose exceptions are
caught inside `_ocr_once`.  Python float scores are modelled as exact
rationals (the weights below stand for the source float literals). -/

structure OcrEnv where
  preprocess : String → Option Nat → Except Unit Nat
  engine : Nat → String → Except Unit String
  nfkc : String → String

/-- First tesseract config literal (`--psm 6` block mode). -/
def TESS_CONFIG_A : String :=
  "--oem 3 --psm 6 -c preserve_interword_spaces=1 -c tessedit_char_blacklist=|\x7b\x7d[]<>\\\\"

/-- Second tesseract config literal (`--psm 4` sparse/column mode). -/
def TESS_CONFIG_B : String :=
  "--oem 3 --psm 4 -c preserve_interword_spaces=1 -c tessedit_char_blacklist=|\x7b\x7d[]<>\\\\"

/-- Def `TESS_CONFIGS` of `ocr_advanced.py`. -/
def TESS_CONFIGS : List String := [TESS_CONFIG_A, TESS_CONFIG_B]

/-- Def `EXPECTED_TOKENS` of `ocr_advanced.py` (the duplicate `"TO WIN"` is in the source). -/
def EXPECTED_TOKENS : List String :=
  ["PARLAY", "WAGER", "TO WIN", "PAYOUT", "ODDS", "BOOST", "SGP", "SGPMAX",
   "TO RECORD", "ANYTIME TD", "TO WIN", "OVER", "UNDER", "TODAY", "EDT",
   "BET", "HARD ROCK", "HARD ROCK BET", "ID:", "PAID", "FINAL", "WON", "LOSS"]

/-- Python `text.replace("\\", "\\\\")`. -/
def escapeBackslashes (cs : List Char) : List Char :=
  cs.foldr (fun c acc => if c = '\\' then '\\' :: '\\' :: acc else c :: acc) []

/-- The character class kept by `_sanitize`: tab, LF, CR and printable ASCII. -/
def isPrintableKeep (c : Char) : Bool :=
  c = '\x09' ∨ c = '\x0a' ∨ c = '\x0d' ∨ ('\x20' ≤ c ∧ c ≤ '\x7e')

/-- Python `text.replace("\r\n", "\n")`. -/
def replaceCRLF : List Char → List Char
  | [] => []
  | '\r' :: '\n' :: rest => '\n' :: replaceCRLF rest
  | c :: rest => c :: replaceCRLF rest

/-- Drop trailing empty lines (the `while lines and lines[-1] == ""` pop loop). -/
def dropTrailingEmpty (l : List String) : List String :=
  (l.reverse.dropWhile (fun s => s = "")).reverse

/-- Def `_sanitize` of `ocr_advanced.py` (NFKC normalisation from the environment). -/
def sanitize (env : OcrEnv) (text : String) : String :=
  let t := env.nfkc text
  let t := escapeBackslashes t.data
  let t := t.filter isPrintableKeep
  let t := replaceCRLF t
  let lines := (pySplitChar '\n' (String.mk t)).map pyStrip
  String.intercalate "\n" (dropTrailingEmpty lines)

/-- Def `_score_text` of `ocr_advanced.py`, float arithmetic carried out exactly
on rationals (`0.35`, `0.25`, `1.5`, `3.0`, `0.5`, `0.6` below are the source
literals). -/
def score_text (text : String) : ℚ :=
  if text = "" then 0
  else
    let L : ℚ := (text.length : ℚ)
    let alpha : ℚ := ((countP Char.isAlpha text : ℚ)) / L
    let digit : ℚ := ((countDigits text : ℚ)) / L
    let pluses := countP (fun c => c = '+') text
    let dashes := countP (fun c => c = '-') text
    let tokens := (EXPECTED_TOKENS.filter (fun t => strContains t (strUpper text))).length
    let lineCount := countP (fun c => c = '\n') text + 1
    let score : ℚ := (alpha * (35 / 100) + digit * (25 / 100)) * 100
      + ((min (pluses + dashes) 10 : Nat) : ℚ) * (3 / 2)
      + ((min tokens 10 : Nat) : ℚ) * 3
      + ((min lineCount 40 : Nat) : ℚ) * (1 / 2)
    if text.length < 60 then score * (3 / 5) else score

/-- Def `_ocr_once` of `ocr_advanced.py`: any engine exception is caught and
yields the empty transcript. -/
def ocr_once (env : OcrEnv) (img : Nat) (config : String) : String :=
  match env.engine img config with
  | .error _ => ""
  | .ok txt => sanitize env txt

/-- One candidate tuple `(mode, rot or 0, cfg_idx, score, length)`. -/
structure Cand where
  mode : String
  rot : Nat
  cfgIdx : Nat
  score : ℚ
  len : Nat
deriving DecidableEq, Repr

/-- The fixed variant list of `ocr_image_multi`. -/
def ocrVariants : List (String × Option Nat) :=
  [("primary", none), ("light", none), ("contrast", none),
   ("primary", some 90), ("primary", some 180), ("primary", some 270)]

/-- The raw-map key `f"{mode}|rot={rot or 0}|cfg={cfg_idx}"`. -/
def candKey (mode : String) (rot : Nat) (cfgIdx : Nat) : String :=
  mode ++ "|rot=" ++ toString rot ++ "|cfg=" ++ toString cfgIdx

/-- The candidate-generation double loop of `ocr_image_multi`; a preprocessing
exception propagates (it is not inside any `try`). -/
def ocrLoop (env : OcrEnv) : List (String × Option Nat) →
    Except Unit (List (String × String) × List Cand)
  | [] => .ok ([], [])
  | (mode, rot) :: rest =>
    match env.preprocess mode rot with
    | .error e => .error e
    | .ok img =>
      let here := TESS_CONFIGS.enum.map (fun p =>
        let text := ocr_once env img p.2
        ((candKey mode (rot.getD 0) p.1, text),
         Cand.mk mode (rot.getD 0) p.1 (score_text text) text.length))
      match ocrLoop env rest with
      | .error e => .error e
      | .ok (raws, cands) => .ok (here.map Prod.fst ++ raws, here.map Prod.snd ++ cands)

/-- Strict `(score, length)` lexicographic comparison, Boolean form. -/
def lexLtB (a b : Cand) : Bool := a.score < b.score || (a.score == b.score && a.len < b.len)

/-- Python `max(candidates, key=lambda x: (x[3], x[4]))`: first candidate of
maximal `(score, length)`. -/
def maxCand : List Cand → Cand
  | [] => ⟨"", 0, 0, 0, 0⟩
  | c :: cs => cs.foldl (fun b x => if lexLtB b x then x else b) c

/-- Result dict of `ocr_image_multi`. -/
structure OcrResult where
  text : String
  mode : String
  config : String
  candidates : List Cand
  raw : List (String × String)
deriving DecidableEq, Repr

/-- Def `ocr_image_multi` of `ocr_advanced.py`. -/
def ocr_image_multi (env : OcrEnv) : Except Unit OcrResult :=
  match ocrLoop env ocrVariants with
  | .error e => .error e
  | .ok (raws, cands) =>
    match cands with
    | [] => .ok ⟨"", "", "", [], []⟩
    | c :: cs =>
      let best := maxCand (c :: cs)
      let bestKey := candKey best.mode best.rot best.cfgIdx
      .ok ⟨(raws.lookup bestKey).getD "", best.mode,
           "cfg_idx=" ++ toString best.cfgIdx, c :: cs, raws⟩

/-! ## cogs/bets.py — live tracking and settlement

The shared mutable state is `self.tracked`, an insertion-ordered dict from
message id to bet dict, modelled as an association list.  The network
(`fetch_scores`' HTTP call), the fuzzy event correlator
(`find_game_id_for_teams`) and the stat resolver (`find_player_stat_for_leg`)
of `espn.py` enter as the environment `TrackEnv` (`http lg = none` models a
raised network error for that league).  Discord rendering is external; the
props tick records the message ids it issues a *final settlement render* for. -/

structure Event where
  id : String
  statusDesc : String
deriving DecidableEq, Repr

structure Scoreboard where
  events : List Event
deriving DecidableEq, Repr

/-- A tracked-bet dict, as built by `on_message` (the `message` handle is an
opaque external render handle and is not part of the modelled state). -/
structure Bet where
  league : Option String
  bet_type : String
  odds : Option Int
  stake : Option ℚ
  payout : Option ℚ
  legs : List Leg
deriving DecidableEq, Repr

structure TrackEnv where
  http : String → Option Scoreboard
  findGameId : Option String → List String → Scoreboard → Option String
  findPlayerStat : String → Event → String → String → Option ℚ

/-- The key set of `ESPN_SCOREBOARD` in `espn.py`. -/
def ESPN_SCOREBOARD_LEAGUES : List String := ["NFL", "NBA", "MLB", "NHL", "SOCCER", "UFC"]

/-- Def `fetch_scores` of `espn.py`: an unconfigured (or `None`) league returns the
empty dict `{}` (no events) without touching the network; a configured league
performs the HTTP call, whose failure (`none`) is a raised exception. -/
def fetch_scores (env : TrackEnv) (league : Option String) : Option Scoreboard :=
  match league with
  | some lg => if ESPN_SCOREBOARD_LEAGUES.contains lg then env.http lg else some ⟨[]⟩
  | none => some ⟨[]⟩

/-- The per-prop-leg body of the `update_props` loop (source lines 205–225).
Returns the leg as mutated so far and whether an exception was raised at this
leg (a raised HTTP error, or `float(None)` on a line-less over/under leg);
the exception is caught by the per-bet `try`, so mutations made before it
stick. -/
def updatePropsLeg (env : TrackEnv) (betLeague : Option String) (leg : Leg) : Leg × Bool :=
  match pyOrOptStr leg.league betLeague with
  | none => (leg, false)
  | some lg =>
    if lg = "" || ¬truthyTeams leg.game_teams then (leg, false)
    else
      match fetch_scores env (some lg) with
      | none => (leg, true)
      | some sb =>
        match pyOrOptStr leg.game_id (env.findGameId (some lg) (leg.game_teams.getD []) sb) with
        | none => (leg, false)
        | some gid =>
          if gid = "" then (leg, false)
          else
            let leg1 := { leg with game_id := some gid }
            match sb.events.find? (fun e => e.id == gid) with
            | none => (leg1, false)
            | some ev =>
              match env.findPlayerStat lg ev (pyOrStr leg.player "") (pyOrStr leg.stat "") with
              | none => (leg1, false)
              | some cur =>
                let leg2 := { leg1 with current_value := some cur }
                if strLower ev.statusDesc = "final" then
                  if leg.side == some "over" then
                    match leg.line with
                    | none => (leg2, true)
                    | some ln => ({ leg2 with result := if cur > ln then "won" else "lost" }, false)
                  else if leg.side == some "under" then
                    match leg.line with
                    | none => (leg2, true)
                    | some ln => ({ leg2 with result := if cur < ln then "won" else "lost" }, false)
                  else ({ leg2 with result := "lost" }, false)
                else (leg2, false)

/-- The loop over `prop_legs` (non-prop legs are untouched); an exception at
one leg aborts the remaining legs of that bet, keeping mutations made so far
(in-place dict mutation), and flags the bet as failed (`false`). -/
def propsLegsLoop (env : TrackEnv) (betLeague : Option String) : List Leg → List Leg × Bool
  | [] => ([], true)
  | leg :: rest =>
    if leg.type == "prop" then
      match updatePropsLeg env betLeague leg with
      | (leg1, false) =>
        let r := propsLegsLoop env betLeague rest
        (leg1 :: r.1, r.2)
      | (leg1, true) => (leg1 :: rest, false)
    else
      let r := propsLegsLoop env betLeague rest
      (leg :: r.1, r.2)

/-- The settlement condition `all(l.get("result") in ("won", "lost") for l in legs)`. -/
def betAllSettled (legs : List Leg) : Bool :=
  legs.all (fun l => l.result == "won" || l.result == "lost")

/-- One `update_props` tick over the tracked dict (in iteration order).
Returns the new tracked dict and the ids of bets that received a final
settlement render (and were popped). -/
def updatePropsTick (env : TrackEnv) : List (String × Bet) → List (String × Bet) × List String
  | [] => ([], [])
  | (k, bet) :: rest =>
    let r := updatePropsTick env rest
    if bet.legs.all (fun l => !(l.type == "prop")) then ((k, bet) :: r.1, r.2)
    else
      let p := propsLegsLoop env bet.league bet.legs
      let bet1 := { bet with legs := p.1 }
      if p.2 && betAllSettled bet1.legs then (r.1, k :: r.2)
      else ((k, bet1) :: r.1, r.2)

/-- The per-leg correlation step of `update_scores` (source lines 149–153):
only a leg with a falsy `game_id` and a truthy `game_teams` is correlated,
and only a truthy result is assigned. -/
def updateScoresLeg (env : TrackEnv) (league : Option String) (sb : Scoreboard) (leg : Leg) : Leg :=
  if ¬truthyStr leg.game_id && truthyTeams leg.game_teams then
    match env.findGameId (pyOrOptStr leg.league league) (leg.game_teams.getD []) sb with
    | some gid => if gid ≠ "" then { leg with game_id := some gid } else leg
    | none => leg
  else leg

/-- The per-bet body of `update_scores`: a bet whose legs are all props is
skipped; a raised fetch leaves the bet untouched (per-bet `try`); rendering
is external and mutates no modelled state. -/
def updateScoresBet (env : TrackEnv) (bet : Bet) : Bet :=
  if bet.legs.all (fun l => l.type == "prop") then bet
  else
    match fetch_scores env bet.league with
    | none => bet
    | some sb => { bet with legs := bet.legs.map (updateScoresLeg env bet.league sb) }

/-- One `update_scores` tick (no bet is ever removed by this loop). -/
def updateScoresTick (env : TrackEnv) (st : List (String × Bet)) : List (String × Bet) :=
  st.map (fun kb => (kb.1, updateScoresBet env kb.2))

/-- A tick of either tracking loop, with its environment (scoreboard
contents, correlator and stat resolver as of that poll). -/
inductive Tick where
  | scores (env : TrackEnv)
  | props (env : TrackEnv)

/-- Apply one tick to the tracked dict. -/
def applyTick : Tick → List (String × Bet) → List (String × Bet)
  | .scores env, st => updateScoresTick env st
  | .props env, st => (updatePropsTick env st).1

/-- Apply a sequence of ticks, oldest first. -/
def applyTicks (ts : List Tick) (st : List (String × Bet)) : List (String × Bet) :=
  ts.foldl (fun s t => applyTick t s) st

/-! ## cogs/bets.py — intake (`on_message`) -/

/-- User-visible output of one intake event. -/
inductive OutMsg where
  | couldNotRead
  | warnLowConf
  | betEmbed (id : String)
deriving DecidableEq, Repr

/-- The tracked-bet dict built from a parsed slip (source lines 121–130). -/
def betOfParsed (p : ParsedSlip) : Bet :=
  { league := p.league, bet_type := p.bet_type, odds := p.odds,
    stake := p.stake, payout := p.payout, legs := p.legs }

/-- Insertion-ordered dict write `self.tracked[bet_id] = {...}`. -/
def dictInsert (st : List (String × Bet)) (k : String) (b : Bet) : List (String × Bet) :=
  if (st.lookup k).isSome then st.map (fun kv => if kv.1 = k then (k, b) else kv)
  else st ++ [(k, b)]

/-- Def `on_message` of `cogs/bets.py`, for a non-bot message with an attachment in
the tracked channel.  The source evaluates `ocr_image_multi(img_bytes)` but the
name `img_bytes` is bound nowhere in the function (or module), so evaluating
the argument raises `NameError`; the surrounding `try` catches it, sends
"Could not read that image." and returns.  Hence every such intake leaves the
tracked dict unchanged and no later line of the handler is reachable. -/
def on_message (tracked : List (String × Bet)) : List (String × Bet) × List OutMsg :=
  (tracked, [OutMsg.couldNotRead])

/-- The intake continuation from `parsed = parse_slip(text)` onward (source
lines 84–137), i.e. what `on_message` would do with a transcript `text` had
the OCR call succeeded.  `threshold` models `CONFIDENCE_THRESHOLD`, which the
cog imports from `config` but which no file under `src/` defines — Modelled
from the spec: "a configurable threshold" consumed by intake, left abstract
as a parameter.
`id1`/`id2` are the Discord ids of the two posted messages.  Note the source
posts the embed and writes the tracked entry twice (lines 107–119 are
repeated verbatim as lines 120–132). -/
def onMessageBody (cat : Catalogs) (threshold : ℚ) (id1 id2 : String) (text : String)
    (tracked : List (String × Bet)) : List (String × Bet) × List OutMsg :=
  let parsed := parse_slip cat text
  let conf : ℚ := if ¬parsed.legs.isEmpty && parsed.legs.any (fun l => !(l.type == "unknown"))
                  then mkRat 9 10 else mkRat 1 2
  if conf < threshold then (tracked, [OutMsg.warnLowConf])
  else
    let bet := betOfParsed parsed
    let t1 := dictInsert tracked id1 bet
    let t2 := dictInsert t1 id2 bet
    (t2, [OutMsg.betEmbed id1, OutMsg.betEmbed id2])

/-! ## Relations and helper functions used by the theorems -/

/-- Per-bet preservation of assigned game identifiers: every leg that holds a
truthy `game_id` in `b` holds the *same* identifier at the same position in
`b'`. -/
def gidPreserved (b b' : Bet) : Prop :=
  ∀ i leg g, b.legs.get? i = some leg → leg.game_id = some g → g ≠ "" →
    ∃ leg', b'.legs.get? i = some leg' ∧ leg'.game_id = some g

/-- Def `(score, length)` lexicographic order on candidates, Prop form. -/
def lexLE (a b : Cand) : Prop :=
  a.score < b.score ∨ (a.score = b.score ∧ a.len ≤ b.len)

/-- The pure raw-map a run of the candidate loop produces when every
preprocessing call succeeds with image `pre mode rot`. -/
def loopRaws (env : OcrEnv) (pre : String → Option Nat → Nat) :
    List (String × Option Nat) → List (String × String)
  | [] => []
  | (mode, rot) :: rest =>
    TESS_CONFIGS.enum.map (fun p =>
      (candKey mode (rot.getD 0) p.1, ocr_once env (pre mode rot) p.2))
      ++ loopRaws env pre rest

/-- The pure candidate list a run of the candidate loop produces when every
preprocessing call succeeds with image `pre mode rot`. -/
def loopCands (env : OcrEnv) (pre : String → Option Nat → Nat) :
    List (String × Option Nat) → List Cand
  | [] => []
  | (mode, rot) :: rest =>
    TESS_CONFIGS.enum.map (fun p =>
      Cand.mk mode (rot.getD 0) p.1 (score_text (ocr_once env (pre mode rot) p.2))
        (ocr_once env (pre mode rot) p.2).length)
      ++ loopCands env pre rest

/-! ## Concrete fixtures for witnesses and counterexamples -/

/-- The transcript of the spec's prop-leg scenario. -/
def drakeText : String := "Drake Maye - Passing Yards\nOver 225.5\n-115\nStake $50"

/-- A correlated, resolvable over-prop leg (line 200). -/
def c1LegA : Leg :=
  { type := "prop"
    league := some "NFL"
    player := some "Drake Maye"
    stat := some "passing yards"
    side := some "over"
    line := some 200
    game_teams := some ["Patriots", "Jets"] }

/-- A prop leg with no `game_teams`, hence never resolvable: it keeps the
bet active forever. -/
def c1LegB : Leg :=
  { type := "prop"
    league := some "NFL"
    player := some "Other Guy"
    stat := some "receptions"
    side := some "over"
    line := some 3 }

/-- A two-prop-leg parlay, one leg resolvable and one not. -/
def c1Bet : Bet :=
  { league := some "NFL"
    bet_type := "parlay"
    odds := some (-115)
    stake := some 50
    payout := none
    legs := [c1LegA, c1LegB] }

/-- Poll environment: the NFL scoreboard has one final game `g1` and the
stat resolver reports `v` passing yards for Drake Maye. -/
def c1Env (v : ℚ) : TrackEnv :=
  { http := fun lg => if lg = "NFL" then some ⟨[⟨"g1", "Final"⟩]⟩ else some ⟨[]⟩
    findGameId := fun _ _ sb => (sb.events.head?).map (fun e => e.id)
    findPlayerStat := fun _ _ p _ => if p = "Drake Maye" then some v else none }

/-- One tracked bet. -/
def c1st0 : List (String × Bet) := [("m1", c1Bet)]

/-- A leg already correlated to game `g7`. -/
def c2Leg : Leg :=
  { type := "prop"
    league := some "NFL"
    player := some "Drake Maye"
    stat := some "passing yards"
    side := some "over"
    line := some 200
    game_teams := some ["Patriots", "Jets"]
    game_id := some "g7" }

/-- A single-leg bet holding the correlated leg. -/
def c2Bet : Bet :=
  { league := some "NFL"
    bet_type := "single"
    odds := none
    stake := none
    payout := none
    legs := [c2Leg] }

/-- One tracked bet with an assigned game id. -/
def c2st0 : List (String × Bet) := [("k", c2Bet)]

/-- A later poll whose scoreboard no longer contains `g7` and whose
correlator would now match a different game `g9`. -/
def c2Env : TrackEnv :=
  { http := fun lg => if lg = "NFL" then some ⟨[⟨"g9", "In Progress"⟩]⟩ else some ⟨[]⟩
    findGameId := fun _ _ _ => some "g9"
    findPlayerStat := fun _ _ _ _ => none }

/-- An over-200 prop leg not yet correlated. -/
def c6Leg : Leg :=
  { type := "prop"
    league := some "NFL"
    player := some "Drake Maye"
    stat := some "passing yards"
    side := some "over"
    line := some 200
    game_teams := some ["Patriots", "Jets"] }

/-- Environment with a final game and a stat value of `v`. -/
def c6Env (v : ℚ) : TrackEnv :=
  { http := fun lg => if lg = "NFL" then some ⟨[⟨"g1", "Final"⟩]⟩ else some ⟨[]⟩
    findGameId := fun _ _ _ => some "g1"
    findPlayerStat := fun _ _ _ _ => some v }

/-- A still-active bet under a different id, present while the settled bet
is already absent. -/
def c9Bet : Bet :=
  { league := some "NFL"
    bet_type := "single"
    odds := none
    stake := none
    payout := none
    legs := [c1LegB] }

/-- Tracked dict not containing the settled bet's id `"gone"`. -/
def c9st : List (String × Bet) := [("other", c9Bet)]

/-- An arbitrary environment for the idempotence witness. -/
def c9Env : TrackEnv :=
  { http := fun _ => some ⟨[]⟩
    findGameId := fun _ _ _ => none
    findPlayerStat := fun _ _ _ _ => none }

/-- A pending spread leg (a non-prop market). -/
def c10Leg : Leg :=
  { type := "spread"
    league := some "NFL"
    team := some "Dallas Cowboys"
    line := some (mkRat (-7) 2)
    game_teams := some ["Dallas Cowboys", "New York Giants"] }

/-- A bet mixing the spread leg with a resolvable prop leg. -/
def c10Bet : Bet :=
  { league := some "NFL"
    bet_type := "parlay"
    odds := none
    stake := none
    payout := none
    legs := [c10Leg, c1LegA] }

/-- One tracked mixed bet. -/
def c10st : List (String × Bet) := [("mix", c10Bet)]

/-- OCR environment whose engine fails on the block-mode config and succeeds
on the sparse-mode config. -/
def ocrEnv0 : OcrEnv :=
  { preprocess := fun _ _ => .ok 0
    engine := fun _ cfg => if cfg = TESS_CONFIG_A then .error () else .ok "OVER 44.5 +110"
    nfkc := fun t => t }

/-! ## Claim theorems -/

/-- Claim C1.  The claim states that a leg's `result`, once terminal, is never
overwritten by a later `update_props` tick even on contradictory stat values.
The code has no such guard: with a two-prop-leg bet whose second leg never
resolves (so the bet is never settled and removed), a tick polling 220 passing
yards on the final game sets the first leg's result to `"won"`, and the next
tick, polling a contradictory 180, overwrites the terminal `"won"` with
`"lost"`. -/
theorem c1_result_overwritten :
    ((applyTick (Tick.props (c1Env 220)) c1st0).map (fun kb => kb.2.legs.map Leg.result)
      = [["won", "pending"]])
    ∧ ((applyTick (Tick.props (c1Env 180)) (applyTick (Tick.props (c1Env 220)) c1st0)).map
        (fun kb => kb.2.legs.map Leg.result)
      = [["lost", "pending"]]) := by
  constructor <;> rfl

/-- Claim C3.  The claim states `boost_leg_segmentation` only rearranges
whitespace and never deletes numeric text.  The stake pattern of the source
consumes `stake … $50` entirely while its replacement `"\n\1\n"` re-emits
only the keyword, so on the input `"Stake $50"` both digits (and the dollar
amount) are deleted. -/
theorem c3_boost_deletes_digits :
    boost_leg_segmentation "Stake $50" "Generic" = "\nStake\n"
    ∧ countDigits "Stake $50" = 2
    ∧ countDigits (boost_leg_segmentation "Stake $50" "Generic") = 0 := by
  refine ⟨rfl, rfl, rfl⟩

/-- Claim C4.  The claim states a high-confidence intake creates exactly one
`TrackedBet` and one rendered message, and a low-confidence intake only a
warning.  In the source, `on_message` always aborts: `img_bytes` is unbound,
so the OCR call raises `NameError`, caught as "could not read" — zero bets are
ever created.  Moreover the post-and-track block is duplicated verbatim, so
even the continuation after a successful parse of `"Over 10.5"` (confidence
0.9 ≥ a 0.7 threshold) records the bet twice and posts two embeds. -/
theorem c4_intake_mismatch :
    (∀ st, on_message st = (st, [OutMsg.couldNotRead]))
    ∧ ((onMessageBody emptyCatalogs (mkRat 7 10) "a" "b" "Over 10.5" []).1.map Prod.fst = ["a", "b"])
    ∧ ((onMessageBody emptyCatalogs (mkRat 7 10) "a" "b" "Over 10.5" []).2
        = [OutMsg.betEmbed "a", OutMsg.betEmbed "b"]) := by
  refine ⟨fun st => rfl, rfl, rfl⟩

/-- Claim C8, counterexample.  The claim states the transcript parses to one
single prop leg with side "over" and line 225.5; the segmenter in fact starts
a new block at the `Over 225.5` line, so the parse yields two legs and
`bet_type = "parlay"`. -/
theorem c8_counterexample :
    (parse_slip emptyCatalogs drakeText).legs.length = 2
    ∧ (parse_slip emptyCatalogs drakeText).bet_type = "parlay" := by
  refine ⟨rfl, rfl⟩

/-- Claim C8, amended.  For every catalog/fuzzy-matcher environment, parsing
the transcript yields slip odds −115, stake 50.0, no payout, `bet_type`
"parlay", and exactly two legs: a prop leg for "Drake Maye" / "passing yards"
with no side and no line, and a total leg with side "over" and line 225.5. -/
theorem c8_amended (cat : Catalogs) :
    (parse_slip cat drakeText).bet_type = "parlay"
    ∧ (parse_slip cat drakeText).odds = some (-115)
    ∧ (parse_slip cat drakeText).stake = some 50
    ∧ (parse_slip cat drakeText).payout = none
    ∧ (parse_slip cat drakeText).legs.map (fun l => (l.type, l.player, l.stat, l.side, l.line))
      = [("prop", some "Drake Maye", some "passing yards", none, none),
         ("total", none, none, some "over", some (mkRat 451 2))] := by
  refine ⟨rfl, rfl, rfl, rfl, rfl⟩

/-! ### Helper lemmas about the settlement sweep (C9) -/

/-- The props tick only re-emits entries (and render ids) whose keys were
already tracked. -/
theorem updatePropsTick_keys (env : TrackEnv) :
    ∀ (st : List (String × Bet)) (k : String), k ∉ st.map Prod.fst →
      k ∉ (updatePropsTick env st).1.map Prod.fst ∧ k ∉ (updatePropsTick env st).2 := by
  intro st
  induction st with
  | nil => intro k _; simp [updatePropsTick]
  | cons kb rest ih =>
    intro k h
    obtain ⟨k1, bet⟩ := kb
    simp only [List.map_cons, List.mem_cons, not_or] at h
    obtain ⟨hk1, hrest⟩ := h
    obtain ⟨ih1, ih2⟩ := ih k hrest
    simp only [updatePropsTick]
    split
    · exact ⟨by simp [hk1, ih1], ih2⟩
    · split
      · exact ⟨ih1, by simp [hk1, ih2]⟩
      · exact ⟨by simp [hk1, ih1], ih2⟩

/-- Claim C9.  The settlement sweep is idempotent on already-settled bets: if
a bet id is absent from the tracked dict, a further `update_props` tick
leaves it absent and issues no terminal render for it. -/
theorem c9_sweep_idempotent (env : TrackEnv) (st : List (String × Bet)) (k : String)
    (h : k ∉ st.map Prod.fst) :
    k ∉ (updatePropsTick env st).1.map Prod.fst ∧ k ∉ (updatePropsTick env st).2 :=
  updatePropsTick_keys env st k h

/-- Witness for C9 at a concrete state: the settled id `"gone"` stays absent
and receives no duplicate render while another bet is still tracked. -/
theorem c9_sweep_idempotent_witness :
    "gone" ∉ (updatePropsTick c9Env c9st).1.map Prod.fst
      ∧ "gone" ∉ (updatePropsTick c9Env c9st).2 :=
  c9_sweep_idempotent c9Env c9st "gone" (by decide)

/-- Claim C5.  `parse_slip` classifies an N-leg slip as "parlay" iff N > 1 and
"single" otherwise, and a slip with zero legs is rejected before a tracked bet
is created: its computed confidence is 0.5, below any threshold above 0.5, so
the intake continuation only warns — and in fact the deployed `on_message`
path rejects every slip before parsing (unbound `img_bytes`), so no zero-leg
slip ever creates state. -/
theorem c5_bet_type (cat : Catalogs) (text : String) :
    ((parse_slip cat text).legs.length > 1 → (parse_slip cat text).bet_type = "parlay")
    ∧ ((parse_slip cat text).legs.length = 1 → (parse_slip cat text).bet_type = "single")
    ∧ ((parse_slip cat text).legs = [] →
        ∀ τ : ℚ, mkRat 1 2 < τ → ∀ i1 i2 st,
          onMessageBody cat τ i1 i2 text st = (st, [OutMsg.warnLowConf]))
    ∧ (∀ st, on_message st = (st, [OutMsg.couldNotRead])) := by
  have hbt : (parse_slip cat text).bet_type
      = if (parse_slip cat text).legs.length > 1 then "parlay" else "single" := rfl
  refine ⟨?_, ?_, ?_, fun st => rfl⟩
  · intro h
    rw [hbt, if_pos h]
  · intro h
    rw [hbt, h]
    norm_num
  · intro h τ hτ i1 i2 st
    unfold onMessageBody
    dsimp only
    rw [h]
    simp [hτ]

/-- Witness for C5: a two-leg slip is a parlay, a one-leg slip a single, and
the empty transcript (zero legs) is rejected with only a warning at a 0.75
threshold. -/
theorem c5_bet_type_witness :
    (parse_slip emptyCatalogs "Over 10.5\nUnder 3.5").bet_type = "parlay"
    ∧ (parse_slip emptyCatalogs "Over 10.5").bet_type = "single"
    ∧ onMessageBody emptyCatalogs (mkRat 3 4) "a" "b" "" [] = ([], [OutMsg.warnLowConf]) :=
  ⟨(c5_bet_type emptyCatalogs "Over 10.5\nUnder 3.5").1 (by decide),
   (c5_bet_type emptyCatalogs "Over 10.5").2.1 (by decide),
   (c5_bet_type emptyCatalogs "").2.2.1 (by decide) (mkRat 3 4) (by decide) "a" "b" []⟩

/-- Claim C6.  When a prop leg with a numeric line and side over/under reaches
the evaluation step of `update_props` — its league and team pair resolve, the
poll returns a scoreboard, a game id is available, the correlated event is
found with a terminal "final" status, and a current stat value `v` is
resolved — the leg's result is set to `"won"` exactly when the side's strict
inequality against the line holds (over: `v > L`; under: `v < L`) and to
`"lost"` otherwise. -/
theorem c6_prop_eval (env : TrackEnv) (betLeague : Option String) (leg : Leg) (lg : String)
    (sb : Scoreboard) (gid : String) (ev : Event) (v L : ℚ) (sd : String)
    (htype : leg.type = "prop")
    (hlg : pyOrOptStr leg.league betLeague = some lg) (hlg2 : lg ≠ "")
    (hteams : truthyTeams leg.game_teams = true)
    (hfetch : fetch_scores env (some lg) = some sb)
    (hgid : pyOrOptStr leg.game_id (env.findGameId (some lg) (leg.game_teams.getD []) sb)
      = some gid)
    (hgid2 : gid ≠ "")
    (hev : sb.events.find? (fun e => e.id == gid) = some ev)
    (hfin : strLower ev.statusDesc = "final")
    (hstat : env.findPlayerStat lg ev (pyOrStr leg.player "") (pyOrStr leg.stat "") = some v)
    (hside : leg.side = some sd) (hsd : sd = "over" ∨ sd = "under")
    (hline : leg.line = some L) :
    (updatePropsLeg env betLeague leg).1.result
      = if (sd = "over" ∧ v > L) ∨ (sd = "under" ∧ v < L) then "won" else "lost" := by
  have _ := htype
  unfold updatePropsLeg
  rw [hlg]
  simp only [hlg2, hteams, hfetch, hgid, hgid2, hev, hstat, hside, hline, hfin,
    not_true_eq_false, decide_False, Bool.or_self, Bool.false_eq_true, if_false]
  rcases hsd with hsd | hsd <;> subst hsd
  · by_cases hvl : v > L <;> simp [hvl]
  · by_cases hvl : v < L <;> simp [hvl]

/-- Witness for C6: against a final game, a current value of 180 on an
over-200 leg settles it `"lost"`, and 220 settles it `"won"`. -/
theorem c6_prop_eval_witness :
    (updatePropsLeg (c6Env 180) (some "NFL") c6Leg).1.result = "lost"
    ∧ (updatePropsLeg (c6Env 220) (some "NFL") c6Leg).1.result = "won" := by
  constructor
  · have h := c6_prop_eval (c6Env 180) (some "NFL") c6Leg "NFL" ⟨[⟨"g1", "Final"⟩]⟩ "g1"
      ⟨"g1", "Final"⟩ 180 200 "over" rfl rfl (by decide) rfl rfl rfl (by decide) rfl rfl rfl
      rfl (Or.inl rfl) rfl
    rw [h]
    decide
  · have h := c6_prop_eval (c6Env 220) (some "NFL") c6Leg "NFL" ⟨[⟨"g1", "Final"⟩]⟩ "g1"
      ⟨"g1", "Final"⟩ 220 200 "over" rfl rfl (by decide) rfl rfl rfl (by decide) rfl rfl rfl
      rfl (Or.inl rfl) rfl
    rw [h]
    decide

/-! ### Helper lemmas about game-id stability (C2) -/

/-- Def `gidPreserved` is reflexive. -/
theorem gidPreserved_refl (b : Bet) : gidPreserved b b :=
  fun _ leg _ hi hg _ => ⟨leg, hi, hg⟩

/-- Def `gidPreserved` is transitive. -/
theorem gidPreserved_trans {a b c : Bet} (h1 : gidPreserved a b) (h2 : gidPreserved b c) :
    gidPreserved a c := by
  intro i leg g hi hg hne
  obtain ⟨leg1, hi1, hg1⟩ := h1 i leg g hi hg hne
  exact h2 i leg1 g hi1 hg1 hne

/-- The props-loop body keeps an already-truthy `game_id` unchanged: the
`leg.get("game_id") or …` idiom short-circuits to the existing identifier,
which is then re-assigned verbatim. -/
theorem updatePropsLeg_game_id (env : TrackEnv) (bl : Option String) (leg : Leg) (g : String)
    (hg : leg.game_id = some g) (hne : g ≠ "") :
    (updatePropsLeg env bl leg).1.game_id = some g := by
  have hpy : ∀ o, pyOrOptStr leg.game_id o = some g := by
    intro o; rw [hg]; simp [pyOrOptStr, hne]
  unfold updatePropsLeg
  split
  · simp [hg]
  · split
    · simp [hg]
    · split
      · simp [hg]
      · rw [hpy]
        simp only [hne, if_false]
        split
        · simp
        · split
          · simp
          · split
            · split
              · split <;> simp
              · split
                · split <;> simp
                · simp
            · simp

/-- The scores-loop correlation step never touches a truthy `game_id`. -/
theorem updateScoresLeg_game_id (env : TrackEnv) (league : Option String) (sb : Scoreboard)
    (leg : Leg) (g : String) (hg : leg.game_id = some g) (hne : g ≠ "") :
    (updateScoresLeg env league sb leg).game_id = some g := by
  unfold updateScoresLeg
  rw [if_neg]
  · exact hg
  · rw [hg]
    simp [truthyStr, hne]

/-- The props leg loop preserves truthy game ids positionally. -/
theorem propsLegsLoop_game_id (env : TrackEnv) (bl : Option String) :
    ∀ (legs : List Leg) (i : Nat) (leg : Leg) (g : String),
      legs.get? i = some leg → leg.game_id = some g → g ≠ "" →
      ∃ leg', (propsLegsLoop env bl legs).1.get? i = some leg' ∧ leg'.game_id = some g := by
  intro legs
  induction legs with
  | nil => intro i leg g hi; simp at hi
  | cons hd tl ih =>
    intro i leg g hi hg hne
    unfold propsLegsLoop
    split
    · split
      · rename_i leg1 heq
        cases i with
        | zero =>
          obtain rfl : hd = leg := by simpa using hi
          have hres := updatePropsLeg_game_id env bl hd g hg hne
          rw [heq] at hres
          exact ⟨leg1, by simp, hres⟩
        | succ i =>
          obtain ⟨leg', h1, h2⟩ := ih i leg g (by simpa using hi) hg hne
          exact ⟨leg', by simpa using h1, h2⟩
      · rename_i leg1 heq
        cases i with
        | zero =>
          obtain rfl : hd = leg := by simpa using hi
          have hres := updatePropsLeg_game_id env bl hd g hg hne
          rw [heq] at hres
          exact ⟨leg1, by simp, hres⟩
        | succ i => exact ⟨leg, by simpa using hi, hg⟩
    · cases i with
      | zero =>
        obtain rfl : hd = leg := by simpa using hi
        exact ⟨hd, by simp, hg⟩
      | succ i =>
        obtain ⟨leg', h1, h2⟩ := ih i leg g (by simpa using hi) hg hne
        exact ⟨leg', by simpa using h1, h2⟩

/-- One bet of the scores tick preserves truthy game ids. -/
theorem updateScoresBet_gid (env : TrackEnv) (bet : Bet) :
    gidPreserved bet (updateScoresBet env bet) := by
  intro i leg g hi hg hne
  unfold updateScoresBet
  split
  · exact ⟨leg, hi, hg⟩
  · split
    · exact ⟨leg, hi, hg⟩
    · rename_i sb heq
      refine ⟨updateScoresLeg env bet.league sb leg, ?_, ?_⟩
      · simp only [List.get?_map, hi, Option.map_some']
      · exact updateScoresLeg_game_id env bet.league sb leg g hg hne

/-- Every entry surviving a props tick descends from a tracked entry under
`gidPreserved`. -/
theorem updatePropsTick_mem (env : TrackEnv) :
    ∀ (st : List (String × Bet)) (k : String) (bet' : Bet),
      (k, bet') ∈ (updatePropsTick env st).1 →
      ∃ bet, (k, bet) ∈ st ∧ gidPreserved bet bet' := by
  intro st
  induction st with
  | nil => intro k b h; simp [updatePropsTick] at h
  | cons kb rest ih =>
    intro k b h
    obtain ⟨k1, bet1⟩ := kb
    simp only [updatePropsTick] at h
    split at h
    · rcases List.mem_cons.mp h with heq | hmem
      · simp only [Prod.mk.injEq] at heq
        obtain ⟨rfl, rfl⟩ := heq
        exact ⟨b, List.mem_cons_self _ _, gidPreserved_refl b⟩
      · obtain ⟨bet, hm, hp⟩ := ih k b hmem
        exact ⟨bet, List.mem_cons_of_mem _ hm, hp⟩
    · split at h
      · obtain ⟨bet, hm, hp⟩ := ih k b h
        exact ⟨bet, List.mem_cons_of_mem _ hm, hp⟩
      · rcases List.mem_cons.mp h with heq | hmem
        · simp only [Prod.mk.injEq] at heq
          obtain ⟨rfl, rfl⟩ := heq
          refine ⟨bet1, List.mem_cons_self _ _, ?_⟩
          intro i leg g hi hg hne
          exact propsLegsLoop_game_id env bet1.league bet1.legs i leg g hi hg hne
        · obtain ⟨bet, hm, hp⟩ := ih k b hmem
          exact ⟨bet, List.mem_cons_of_mem _ hm, hp⟩

/-- Every entry surviving any tick descends from a tracked entry under
`gidPreserved`. -/
theorem applyTick_mem (t : Tick) (st : List (String × Bet)) (k : String) (bet' : Bet)
    (h : (k, bet') ∈ applyTick t st) :
    ∃ bet, (k, bet) ∈ st ∧ gidPreserved bet bet' := by
  cases t with
  | scores env =>
    obtain ⟨⟨k0, b0⟩, hm, heq⟩ := List.mem_map.mp h
    simp only [Prod.mk.injEq] at heq
    obtain ⟨rfl, rfl⟩ := heq
    exact ⟨b0, hm, updateScoresBet_gid env b0⟩
  | props env => exact updatePropsTick_mem env st k bet' h

/-- Claim C2.  Across any sequence of `update_scores` / `update_props` ticks,
with arbitrary (and arbitrarily changing) scoreboard contents, every leg of
every surviving tracked bet that held an assigned (truthy) `game_id` still
holds that exact identifier: it is never cleared and never reassigned. -/
theorem c2_game_id_stable :
    ∀ (ticks : List Tick) (st : List (String × Bet)) (k : String) (bet' : Bet),
      (k, bet') ∈ applyTicks ticks st →
      ∃ bet, (k, bet) ∈ st ∧ gidPreserved bet bet' := by
  intro ticks
  induction ticks with
  | nil => intro st k b h; exact ⟨b, h, gidPreserved_refl b⟩
  | cons t ts ih =>
    intro st k b h
    obtain ⟨b1, hb1, hp1⟩ := ih (applyTick t st) k b h
    obtain ⟨b0, hb0, hp0⟩ := applyTick_mem t st k b1 hb1
    exact ⟨b0, hb0, gidPreserved_trans hp0 hp1⟩

/-- Witness for C2: after a props tick whose scoreboard now lacks game `g7`
and whose correlator would return `g9`, the bet still tracks `g7` on its leg
and descends from the original entry with the id preserved. -/
theorem c2_game_id_stable_witness :
    ∃ bet, ("k", bet) ∈ c2st0 ∧ gidPreserved bet c2Bet :=
  c2_game_id_stable [Tick.props c2Env] c2st0 "k" c2Bet (by decide)

/-! ### Helper lemmas about non-prop legs (C10) -/

/-- The scores-loop leg step only ever writes `game_id`: market type and
result are untouched. -/
theorem updateScoresLeg_type_result (env : TrackEnv) (league : Option String)
    (sb : Scoreboard) (leg : Leg) :
    (updateScoresLeg env league sb leg).type = leg.type
      ∧ (updateScoresLeg env league sb leg).result = leg.result := by
  unfold updateScoresLeg
  split
  · split
    · split <;> exact ⟨rfl, rfl⟩
    · exact ⟨rfl, rfl⟩
  · exact ⟨rfl, rfl⟩

/-- The props leg loop leaves non-prop legs verbatim at their position. -/
theorem propsLegsLoop_nonprop (env : TrackEnv) (bl : Option String) :
    ∀ (legs : List Leg) (i : Nat) (leg : Leg),
      legs.get? i = some leg → leg.type ≠ "prop" →
      (propsLegsLoop env bl legs).1.get? i = some leg := by
  intro legs
  induction legs with
  | nil => intro i leg hi; simp at hi
  | cons hd tl ih =>
    intro i leg hi hnp
    unfold propsLegsLoop
    split
    · rename_i hp
      split
      · cases i with
        | zero =>
          obtain rfl : hd = leg := by simpa using hi
          exact absurd (by simpa using hp) hnp
        | succ i => simpa using ih i leg (by simpa using hi) hnp
      · cases i with
        | zero =>
          obtain rfl : hd = leg := by simpa using hi
          exact absurd (by simpa using hp) hnp
        | succ i => simpa using hi
    · cases i with
      | zero => simpa using hi
      | succ i => simpa using ih i leg (by simpa using hi) hnp

/-- A pending leg anywhere in the list falsifies the settlement condition. -/
theorem betAllSettled_false (legs : List Leg) (i : Nat) (leg : Leg)
    (hi : legs.get? i = some leg) (hp : leg.result = "pending") :
    betAllSettled legs = false := by
  cases hb : betAllSettled legs with
  | false => rfl
  | true =>
    have hmem : leg ∈ legs := List.get?_mem hi
    have := List.all_eq_true.mp hb leg hmem
    rw [hp] at this
    simp at this

/-- A bet holding a pending non-prop leg survives a props tick with that leg
verbatim. -/
theorem updatePropsTick_keeps (env : TrackEnv) :
    ∀ (st : List (String × Bet)) (k : String) (bet : Bet) (i : Nat) (leg : Leg),
      (k, bet) ∈ st → bet.legs.get? i = some leg → leg.type ≠ "prop" →
      leg.result = "pending" →
      ∃ bet', (k, bet') ∈ (updatePropsTick env st).1 ∧ bet'.legs.get? i = some leg := by
  intro st
  induction st with
  | nil => intro k bet i leg h; simp at h
  | cons kb rest ih =>
    intro k bet i leg hmem hi hnp hp
    obtain ⟨k1, bet1⟩ := kb
    rcases List.mem_cons.mp hmem with heq | hmem'
    · simp only [Prod.mk.injEq] at heq
      obtain ⟨rfl, rfl⟩ := heq
      simp only [updatePropsTick]
      split
      · exact ⟨bet, List.mem_cons_self _ _, hi⟩
      · have hleg1 := propsLegsLoop_nonprop env bet.league bet.legs i leg hi hnp
        have hsettle := betAllSettled_false (propsLegsLoop env bet.league bet.legs).1 i leg
          hleg1 hp
        rw [if_neg]
        · exact ⟨_, List.mem_cons_self _ _, hleg1⟩
        · simp [hsettle]
    · obtain ⟨bet', hm', hleg'⟩ := ih k bet i leg hmem' hi hnp hp
      simp only [updatePropsTick]
      split
      · exact ⟨bet', List.mem_cons_of_mem _ hm', hleg'⟩
      · split
        · exact ⟨bet', hm', hleg'⟩
        · exact ⟨bet', List.mem_cons_of_mem _ hm', hleg'⟩

/-- A bet with a pending non-prop leg survives any tick with the leg's type
and result unchanged. -/
theorem applyTick_keeps (t : Tick) (st : List (String × Bet)) (k : String) (bet : Bet)
    (i : Nat) (leg : Leg) (hmem : (k, bet) ∈ st) (hi : bet.legs.get? i = some leg)
    (hnp : leg.type ≠ "prop") (hp : leg.result = "pending") :
    ∃ bet' leg', (k, bet') ∈ applyTick t st ∧ bet'.legs.get? i = some leg'
      ∧ leg'.type = leg.type ∧ leg'.result = "pending" := by
  cases t with
  | scores env =>
    have hkeep : ∃ leg', (updateScoresBet env bet).legs.get? i = some leg'
        ∧ leg'.type = leg.type ∧ leg'.result = leg.result := by
      unfold updateScoresBet
      split
      · exact ⟨leg, hi, rfl, rfl⟩
      · split
        · exact ⟨leg, hi, rfl, rfl⟩
        · rename_i sb heq
          refine ⟨updateScoresLeg env bet.league sb leg, ?_,
            (updateScoresLeg_type_result env bet.league sb leg).1,
            (updateScoresLeg_type_result env bet.league sb leg).2⟩
          simp only [List.get?_map, hi, Option.map_some']
    obtain ⟨leg', h1, h2, h3⟩ := hkeep
    exact ⟨updateScoresBet env bet, leg', List.mem_map.mpr ⟨(k, bet), hmem, rfl⟩, h1, h2,
      by rw [h3, hp]⟩
  | props env =>
    obtain ⟨bet', hm', hleg'⟩ := updatePropsTick_keeps env st k bet i leg hmem hi hnp hp
    exact ⟨bet', leg, hm', hleg', rfl, hp⟩

/-- Claim C10.  No tick of either tracking loop ever moves a non-prop leg
(`total`, `spread`, `moneyline`, `unknown`) out of `pending`, and a bet
containing such a leg is never settled or removed from the active set, over
any sequence of ticks. -/
theorem c10_nonprop_pending (ticks : List Tick) (st : List (String × Bet)) (k : String)
    (bet : Bet) (i : Nat) (leg : Leg) (hmem : (k, bet) ∈ st)
    (hi : bet.legs.get? i = some leg)
    (htype : leg.type = "total" ∨ leg.type = "spread" ∨ leg.type = "moneyline"
      ∨ leg.type = "unknown")
    (hres : leg.result = "pending") :
    ∃ bet' leg', (k, bet') ∈ applyTicks ticks st ∧ bet'.legs.get? i = some leg'
      ∧ leg'.type = leg.type ∧ leg'.result = "pending" := by
  induction ticks generalizing st bet leg with
  | nil => exact ⟨bet, leg, hmem, hi, rfl, hres⟩
  | cons t ts ih =>
    have hnp : leg.type ≠ "prop" := by
      rcases htype with h | h | h | h <;> simp [h]
    obtain ⟨b1, l1, hm1, hi1, ht1, hr1⟩ := applyTick_keeps t st k bet i leg hmem hi hnp hres
    have htype1 : l1.type = "total" ∨ l1.type = "spread" ∨ l1.type = "moneyline"
        ∨ l1.type = "unknown" := ht1 ▸ htype
    obtain ⟨b2, l2, hm2, hi2, ht2, hr2⟩ := ih (applyTick t st) b1 l1 hm1 hi1 htype1 hr1
    exact ⟨b2, l2, hm2, hi2, ht2.trans ht1, hr2⟩

/-- Witness for C10: a mixed bet whose spread leg is pending survives a props
tick followed by a scores tick with the spread leg still pending, even while
its prop leg settles. -/
theorem c10_nonprop_pending_witness :
    ∃ bet' leg',
      ("mix", bet') ∈ applyTicks [Tick.props (c1Env 220), Tick.scores (c1Env 220)] c10st
      ∧ bet'.legs.get? 0 = some leg' ∧ leg'.type = "spread" ∧ leg'.result = "pending" := by
  have h := c10_nonprop_pending [Tick.props (c1Env 220), Tick.scores (c1Env 220)] c10st
    "mix" c10Bet 0 c10Leg (by decide) (by decide) (Or.inr (Or.inl (by decide))) (by decide)
  obtain ⟨bet', leg', hm, hi, ht, hr⟩ := h
  exact ⟨bet', leg', hm, hi, by rw [ht]; decide, hr⟩

/-! ### Helper lemmas about the OCR candidate loop (C7) -/

/-- When every preprocessing call succeeds, the candidate loop completes and
produces exactly the pure raw map and candidate list. -/
theorem ocrLoop_ok (env : OcrEnv) (pre : String → Option Nat → Nat) :
    ∀ (vs : List (String × Option Nat)),
      (∀ mr ∈ vs, env.preprocess mr.1 mr.2 = Except.ok (pre mr.1 mr.2)) →
      ocrLoop env vs = Except.ok (loopRaws env pre vs, loopCands env pre vs) := by
  intro vs
  induction vs with
  | nil => intro _; rfl
  | cons v rest ih =>
    intro h
    obtain ⟨mode, rot⟩ := v
    have hv := h (mode, rot) (List.mem_cons_self _ _)
    have hr := ih (fun mr hm => h mr (List.mem_cons_of_mem _ hm))
    unfold ocrLoop
    rw [hv, hr]
    simp [loopRaws, loopCands, List.map_map]

/-- A failing engine call contributes a zero-scored, zero-length candidate. -/
theorem loopCands_zero (env : OcrEnv) (pre : String → Option Nat → Nat) :
    ∀ (vs : List (String × Option Nat)) (mr : String × Option Nat), mr ∈ vs →
      ∀ p ∈ TESS_CONFIGS.enum, env.engine (pre mr.1 mr.2) p.2 = Except.error () →
      Cand.mk mr.1 (mr.2.getD 0) p.1 0 0 ∈ loopCands env pre vs := by
  intro vs
  induction vs with
  | nil => intro mr hm; simp at hm
  | cons v rest ih =>
    intro mr hm p hp heng
    rcases List.mem_cons.mp hm with rfl | hm'
    · have htext : ocr_once env (pre mr.1 mr.2) p.2 = "" := by
        unfold ocr_once
        rw [heng]
      refine List.mem_append_left _ (List.mem_map.mpr ⟨p, hp, ?_⟩)
      obtain ⟨mode, rot⟩ := mr
      simp only at htext
      rw [htext]
      rfl
    · exact List.mem_append_right _ (ih mr hm' p hp heng)

/-- Def `ocr_image_multi` repackages a successful loop's candidates unchanged. -/
theorem ocr_image_multi_candidates (env : OcrEnv) (raws : List (String × String))
    (cands : List Cand) (hloop : ocrLoop env ocrVariants = Except.ok (raws, cands)) :
    ∃ res, ocr_image_multi env = Except.ok res ∧ res.candidates = cands := by
  unfold ocr_image_multi
  rw [hloop]
  cases cands with
  | nil => exact ⟨_, rfl, rfl⟩
  | cons c cs => exact ⟨_, rfl, rfl⟩

/-- Strict lexicographic comparison implies the non-strict order. -/
theorem lexLtB_le {a b : Cand} (h : lexLtB a b = true) : lexLE a b := by
  simp only [lexLtB, Bool.or_eq_true, Bool.and_eq_true, decide_eq_true_eq, beq_iff_eq] at h
  rcases h with h | ⟨h1, h2⟩
  · exact Or.inl h
  · exact Or.inr ⟨h1, le_of_lt h2⟩

/-- A failed strict comparison yields the reverse non-strict order. -/
theorem lexLtB_false_ge {a b : Cand} (h : lexLtB a b = false) : lexLE b a := by
  simp only [lexLtB, Bool.or_eq_false_iff, Bool.and_eq_false_iff, decide_eq_false_iff_not,
    beq_eq_false_iff_ne, ne_eq] at h
  obtain ⟨h1, h2⟩ := h
  rcases lt_or_eq_of_le (le_of_not_lt h1) with hlt | heq
  · exact Or.inl hlt
  · rcases h2 with h2 | h2
    · exact absurd heq.symm h2
    · exact Or.inr ⟨heq, le_of_not_lt h2⟩

/-- Def `lexLE` is transitive. -/
theorem lexLE_trans {a b c : Cand} (h1 : lexLE a b) (h2 : lexLE b c) : lexLE a c := by
  rcases h1 with h1 | ⟨e1, l1⟩ <;> rcases h2 with h2 | ⟨e2, l2⟩
  · exact Or.inl (h1.trans h2)
  · exact Or.inl (e2 ▸ h1)
  · exact Or.inl (e1 ▸ h2)
  · exact Or.inr ⟨e1.trans e2, l1.trans l2⟩

/-- The fold underlying `maxCand` dominates its seed and every element. -/
theorem foldl_max_le (cs : List Cand) : ∀ b : Cand,
    lexLE b (cs.foldl (fun b x => if lexLtB b x then x else b) b)
      ∧ ∀ x ∈ cs, lexLE x (cs.foldl (fun b x => if lexLtB b x then x else b) b) := by
  induction cs with
  | nil => intro b; exact ⟨Or.inr ⟨rfl, le_refl _⟩, by simp⟩
  | cons c cs ih =>
    intro b
    have hb : lexLE b (if lexLtB b c then c else b) := by
      split
      · exact lexLtB_le (by assumption)
      · exact Or.inr ⟨rfl, le_refl _⟩
    have hc : lexLE c (if lexLtB b c then c else b) := by
      split
      · exact Or.inr ⟨rfl, le_refl _⟩
      · exact lexLtB_false_ge (by simp_all)
    obtain ⟨ih1, ih2⟩ := ih (if lexLtB b c then c else b)
    refine ⟨lexLE_trans hb ih1, ?_⟩
    intro x hx
    rcases List.mem_cons.mp hx with rfl | hx'
    · exact lexLE_trans hc ih1
    · exact ih2 x hx'

/-- Every candidate is `(score, length)`-dominated by `maxCand`, the
embedding of `max(candidates, key=lambda x: (x[3], x[4]))`. -/
theorem maxCand_le (l : List Cand) (c : Cand) (hc : c ∈ l) : lexLE c (maxCand l) := by
  cases l with
  | nil => simp at hc
  | cons c0 cs =>
    rcases List.mem_cons.mp hc with rfl | hc'
    · exact (foldl_max_le cs c).1
    · exact (foldl_max_le cs c0).2 c hc'

/-- Claim C7.  If preprocessing succeeds on every variant (the image decodes),
`ocr_image_multi` completes and returns a result no matter which engine calls
fail: every variant/config combination whose engine call raises is caught and
contributes a candidate scored zero with an empty transcript, and the
selected best candidate `(score, length)`-dominates every candidate. -/
theorem c7_engine_failure_isolated (env : OcrEnv) (pre : String → Option Nat → Nat)
    (hpre : ∀ mr ∈ ocrVariants, env.preprocess mr.1 mr.2 = Except.ok (pre mr.1 mr.2)) :
    ∃ res : OcrResult, ocr_image_multi env = Except.ok res
      ∧ (∀ mr ∈ ocrVariants, ∀ p ∈ TESS_CONFIGS.enum,
          env.engine (pre mr.1 mr.2) p.2 = Except.error () →
          Cand.mk mr.1 (mr.2.getD 0) p.1 0 0 ∈ res.candidates)
      ∧ (∀ c ∈ res.candidates, lexLE c (maxCand res.candidates)) := by
  have hloop := ocrLoop_ok env pre ocrVariants hpre
  obtain ⟨res, hok, hcand⟩ := ocr_image_multi_candidates env _ _ hloop
  refine ⟨res, hok, ?_, fun c hc => maxCand_le res.candidates c hc⟩
  intro mr hmr p hp heng
  rw [hcand]
  exact loopCands_zero env pre ocrVariants mr hmr p hp heng

/-- Witness for C7: with an engine failing on the block-mode config, the run
still returns a result and the failing primary/cfg-0 combination is present
as a zero-scored candidate. -/
theorem c7_engine_failure_isolated_witness :
    ∃ res : OcrResult, ocr_image_multi ocrEnv0 = Except.ok res
      ∧ Cand.mk "primary" 0 0 0 0 ∈ res.candidates := by
  obtain ⟨res, hok, hzero, _⟩ :=
    c7_engine_failure_isolated ocrEnv0 (fun _ _ => 0) (fun mr _ => rfl)
  exact ⟨res, hok, hzero ("primary", none) (by decide) (0, TESS_CONFIG_A) (by decide) (by rfl)⟩
